import Mathlib

/-!
Verification of the iohub (czbiohub/iohub) OME-NGFF writer and reader
components against their natural-language specification.

The Python source is shallowly embedded: zarr groups are association lists
from names to store objects, a zarr array is its shape, dtype and an index
function for the stored values (zero-filled on creation and on the regions
exposed by `resize`), and fallible operations return `Except`-style results
that carry the store state observable when the exception propagates.
Machine integers are modelled as `Int`/`Nat` (Python integers are unbounded,
so no wrap-around is involved), and the float-valued coordinate
transformations are modelled over `ℚ` (the values exercised by the claims
are small integers, which the Python floats represent exactly).
-/

namespace Iohub

/-! ## Association-list helpers (Python `dict` / zarr group member semantics:
assignment replaces an existing key in place or appends a new one). -/

def lookupAssoc {α : Type} : List (String × α) → String → Option α
  | [], _ => none
  | (k, w) :: rest, n => if k == n then some w else lookupAssoc rest n

def setAssoc {α : Type} : List (String × α) → String → α → List (String × α)
  | [], n, v => [(n, v)]
  | (k, w) :: rest, n, v =>
      if k == n then (n, v) :: rest else (k, w) :: setAssoc rest n v

/-! ## Chunked arrays and store groups (the zarr collaborator interface, §6) -/

/-- A chunked N-dimensional array: shape, dtype name, chunk shape, and the
value stored at each index tuple.  The value function is meaningful on
indices within the shape; creation zero-fills, and `resize` exposes zeros
on any region that was not covered by the previous shape. -/
structure ZArr where
  shape : List Nat
  dtype : String
  chunks : List Nat
  val : List Nat → Int

/-- Bounds check of an index tuple against a shape. -/
def inBoundsB (shape idx : List Nat) : Bool :=
  idx.length == shape.length && (List.zip idx shape).all fun p => p.1 < p.2

/-- The zarr `Array.resize`: the shape changes and reads on regions outside
the old shape give the fill value 0.  (Chunk-level data retention after a
shrink-then-grow is not modelled; no operation verified here shrinks.) -/
def ZArr.resize (a : ZArr) (newShape : List Nat) : ZArr :=
  { a with
    shape := newShape
    val := fun idx => if inBoundsB a.shape idx then a.val idx else 0 }

/-- A zero-filled array, as created by `zarr.Group.zeros`. -/
def zerosZArr (shape chunks : List Nat) (dtype : String) : ZArr :=
  { shape := shape, dtype := dtype, chunks := chunks, val := fun _ => 0 }

/-- An object stored under a name in a zarr group: an array or a sub-group. -/
inductive StoreObj where
  | arr (a : ZArr)
  | grp

/-- Exceptions surfaced by the writer paths under verification. -/
inductive ZErr where
  | valueError (msg : String)
  | fileExistsError (msg : String)
  | attributeError (msg : String)
  | indexError (msg : String)
deriving DecidableEq

/-! ## OME-NGFF metadata records (`iohub.ngff_meta`), at the granularity the
writer paths under verification construct and update them. -/

structure AxisMeta where
  name : String
  type : String
  unit : Option String := none
deriving DecidableEq

/-- A coordinate transformation: identity, per-axis scale, or per-axis
translation (§3 of the spec; `iohub.ngff_meta.TransformationMeta`). -/
inductive TransformationMeta where
  | identity
  | scale (scale : List ℚ)
  | translation (translation : List ℚ)
deriving DecidableEq

structure DatasetMeta where
  path : String
  coordinate_transformations : List TransformationMeta
deriving DecidableEq

structure MultiScaleMeta where
  version : String
  axes : List AxisMeta
  datasets : List DatasetMeta
deriving DecidableEq

def MultiScaleMeta.get_dataset_paths (m : MultiScaleMeta) : List String :=
  m.datasets.map (·.path)

/-- Modelled from the spec: `iohub.lf_utils.channel_display_settings` is not
under `src/`; §3 describes a channel display record with label, color,
display range and active flag.  Only the label and the primary-channel flag
are observable by the claims verified here. -/
structure ChannelMeta where
  label : String
  first_chan : Bool
deriving DecidableEq

structure RDefsMeta where
  default_t : Nat
  default_z : Nat
deriving DecidableEq

structure OMEROMeta where
  version : String
  id : Nat
  name : String
  channels : List ChannelMeta
  rdefs : RDefsMeta
deriving DecidableEq

structure ImagesMeta where
  multiscales : List MultiScaleMeta
  omero : OMEROMeta
deriving DecidableEq

/-- A zarr group: its absolute name, its members, and its attribute document
(only the image-level attributes written by `OMEZarrWriter` are modelled). -/
structure Group where
  name : String
  objs : List (String × StoreObj)
  attrs : Option ImagesMeta

def Group.get (g : Group) (name : String) : Option StoreObj :=
  lookupAssoc g.objs name

def Group.set (g : Group) (name : String) (o : StoreObj) : Group :=
  { g with objs := setAssoc g.objs name o }

/-! ## `iohub.writer.OMEZarrWriter` -/

/-- The writer state: constructor arguments plus the `images_meta` attribute
that `_dump_zstack_meta` creates on first use. -/
structure OMEZarrWriter where
  channel_names : List String
  version : String := "0.4"
  arr_name : String := "0"
  axes : List AxisMeta
  images_meta : Option ImagesMeta := none

def defaultAxes : List AxisMeta :=
  [{ name := "T", type := "time", unit := some "second" },
   { name := "C", type := "channel" },
   { name := "Z", type := "space", unit := some "micrometer" },
   { name := "Y", type := "space", unit := some "micrometer" },
   { name := "X", type := "space", unit := some "micrometer" }]

/-- `OMEZarrWriter.require_array`: create a zero-filled `(1, 1, Z, Y, X)`
array if the name is unbound; return an existing array whose trailing three
dimensions match `zyx_shape`; otherwise raise.  (`shape[-3:]` is
`shape.drop (shape.length - 3)`.)  The Python guard for a non-array object
is `if value and not isinstance(value, zarr.Array)`, so a falsy (empty)
existing group would fall through every branch and return `None`; groups are
modelled as raising the `FileExistsError` of the non-empty case, which no
claim distinguishes. -/
def require_array (g : Group) (name : String) (zyx_shape : List Nat)
    (dtype : String) (chunks : Option (List Nat)) : Except ZErr (Group × ZArr) :=
  if zyx_shape.length ≠ 3 then
    .error (.valueError "Shape does not have 3 dimensions.")
  else
    match g.get name with
    | some .grp => .error (.fileExistsError "Name maps to a non-array object.")
    | some (.arr a) =>
        if a.shape.drop (a.shape.length - 3) = zyx_shape then .ok (g, a)
        else .error (.fileExistsError "An array exists with incompatible shape.")
    | none =>
        let chunks := match chunks with
          | none => zyx_shape
          | some [] => zyx_shape
          | some c => c
        let a := zerosZArr (1 :: 1 :: zyx_shape) chunks dtype
        .ok (g.set name (.arr a), a)

/-- An in-memory N-dimensional array handed to the writer (numpy `NDArray`). -/
structure NDArr where
  shape : List Nat
  dtype : String
  val : List Nat → Int

/-- `OMEZarrWriter._dataset_meta`: a falsy (absent or empty) transform list
defaults to the identity pipeline. -/
def dataset_meta (name : String) (transform : Option (List TransformationMeta)) :
    DatasetMeta :=
  { path := name
    coordinate_transformations :=
      match transform with
      | none => [.identity]
      | some [] => [.identity]
      | some t => t }

/-- `OMEZarrWriter._omero_meta`: the channel list is built by zipping the
channel names with the four default contrast limits (`zip` truncates to at
most four channels); the loop sets `first_chan` at index 0 and never resets
it, so every emitted channel carries the flag. -/
def omero_meta (w : OMEZarrWriter) (id : Nat) (groupName : String) : OMEROMeta :=
  { version := w.version
    id := id
    name := groupName
    channels := (w.channel_names.take 4).map fun cn => { label := cn, first_chan := true }
    rdefs := { default_t := 0, default_z := 0 } }

/-- `OMEZarrWriter._dump_zstack_meta`: on first use build the multiscales and
omero records and store them on the writer and in the root attributes;
afterwards append the dataset entry if its path is new and re-serialize.
Accessing `self.images_meta` when it was never assigned is Python's
`AttributeError`; indexing an empty `multiscales` list is `IndexError`. -/
def dump_zstack_meta (w : OMEZarrWriter) (g : Group) (name : String)
    (transform : Option (List TransformationMeta)) :
    Except ZErr (OMEZarrWriter × Group) :=
  let dm := dataset_meta name transform
  match g.attrs with
  | none =>
      let ms : MultiScaleMeta := { version := w.version, axes := w.axes, datasets := [dm] }
      let im : ImagesMeta := { multiscales := [ms], omero := omero_meta w 0 g.name }
      .ok ({ w with images_meta := some im }, { g with attrs := some im })
  | some _ =>
      match w.images_meta with
      | none => .error (.attributeError "images_meta not set")
      | some im =>
          match im.multiscales with
          | [] => .error (.indexError "multiscales is empty")
          | m0 :: rest =>
              let im' : ImagesMeta :=
                if dm.path ∈ m0.get_dataset_paths then im
                else { im with multiscales := { m0 with datasets := m0.datasets ++ [dm] } :: rest }
              .ok ({ w with images_meta := some im' }, { g with attrs := some im' })

/-- Result of a writer call: success or a raised exception, in both cases
with the store and writer state observable afterwards. -/
inductive WResult where
  | ok (g : Group) (w : OMEZarrWriter)
  | err (e : ZErr) (g : Group) (w : OMEZarrWriter)

/-- The tail of `write_zstack` after the slab has been written into `g2`:
`if auto_meta: self._dump_zstack_meta(name, transform, additional_meta)`. -/
def finish_zstack (w : OMEZarrWriter) (g2 : Group) (name : String)
    (transform : Option (List TransformationMeta)) (auto_meta : Bool) : WResult :=
  if auto_meta then
    match dump_zstack_meta w g2 name transform with
    | .error e => .err e g2 w
    | .ok (w', g3) => .ok g3 w'
  else .ok g2 w

def WResult.isOk : WResult → Bool
  | .ok _ _ => true
  | .err _ _ _ => false

def WResult.isValueErr : WResult → Bool
  | .err (.valueError _) _ _ => true
  | _ => false

def WResult.group : WResult → Group
  | .ok g _ => g
  | .err _ g _ => g

def WResult.writer : WResult → OMEZarrWriter
  | .ok _ w => w
  | .err _ _ w => w

/-- `OMEZarrWriter.write_zstack`.  Faithful points: the dimension check only
rejects data of fewer than 3 dimensions; `zyx_shape` is the trailing three
dimensions of the data; the array is acquired (created) before any write;
the resize to `(max(t+1, T), max(c+1, C), Z, Y, X)` happens only when an
index is out of range and mutates the stored array immediately (a rank
mismatch between the resize arguments and the array makes zarr raise before
mutating); the slab assignment `array[t, c] = data` requires the value shape
to equal the selection shape `array.shape[2:]` exactly (zarr's
`check_array_shape` raises `ValueError` otherwise, after any resize);
metadata is dumped only after a successful write. -/
def write_zstack (w : OMEZarrWriter) (g : Group) (data : NDArr)
    (time_index channel_index : Int)
    (transform : Option (List TransformationMeta)) (name : Option String)
    (auto_meta : Bool) : WResult :=
  if data.shape.length < 3 then
    .err (.valueError "Data has less than 3 dimensions.") g w
  else if time_index < 0 ∨ channel_index < 0 then
    .err (.valueError "Time and channel indices must be non-negative.") g w
  else
    let name := match name with
      | none => w.arr_name
      | some "" => w.arr_name
      | some n => n
    let zyx_shape := data.shape.drop (data.shape.length - 3)
    match require_array g name zyx_shape data.dtype none with
    | .error e => .err e g w
    | .ok (g1, array) =>
        let t := time_index.toNat
        let c := channel_index.toNat
        let s0 := array.shape.getD 0 0
        let s1 := array.shape.getD 1 0
        let resized : Except ZErr ZArr :=
          if s0 ≤ t ∨ s1 ≤ c then
            let newShape := max (t + 1) s0 :: max (c + 1) s1 :: zyx_shape
            if newShape.length = array.shape.length then .ok (array.resize newShape)
            else .error (.valueError "Resize arguments do not match array rank.")
          else .ok array
        match resized with
        | .error e => .err e g1 w
        | .ok array1 =>
            if data.shape = array1.shape.drop 2 then
              let array2 : ZArr :=
                { array1 with
                  val := fun idx =>
                    if idx.take 2 = [t, c] then data.val (idx.drop 2) else array1.val idx }
              finish_zstack w (g1.set name (.arr array2)) name transform auto_meta
            else
              .err (.valueError "Value shape does not match the selection shape.")
                (g1.set name (.arr array1)) w

/-! ## Concrete stores, writers and data used by witnesses and counterexamples -/

def c7G : Group := { name := "/", objs := [], attrs := none }

def cW : OMEZarrWriter := { channel_names := ["BF"], axes := defaultAxes }

def cG : Group := { name := "/", objs := [], attrs := none }

def c2LowDim : NDArr := { shape := [2, 2], dtype := "uint16", val := fun _ => 0 }

def c2Data4d : NDArr := { shape := [1, 2, 2, 2], dtype := "uint16", val := fun _ => 7 }

def c2Run : WResult := write_zstack cW cG c2Data4d 0 0 none none true

/-- A 5D array of shape `(1, 1, 1, 1, 1)` holding the value 5, the existing
array for the C1 witness. -/
def c1Arr : ZArr := { shape := [1, 1, 1, 1, 1], dtype := "uint16", chunks := [1, 1, 1], val := fun _ => 5 }

def c1G0 : Group := { name := "/", objs := [("0", .arr c1Arr)], attrs := none }

def c1Data : NDArr := { shape := [1, 1, 1], dtype := "uint16", val := fun _ => 9 }

def c1Run1 : WResult := write_zstack cW c1G0 c1Data 2 0 none none true

def c1Run2 : WResult := write_zstack c1Run1.writer c1Run1.group c1Data 0 3 none none true

/-- The shape of the array stored under a name, if any. -/
def arrShapeAt (g : Group) (n : String) : Option (List Nat) :=
  match g.get n with
  | some (.arr a) => some a.shape
  | _ => none

/-! ## `iohub.mm_fov.MicroManagerFOVMapping.hcs_position_labels`

A stage position is represented by its `"Label"` string.  The Python
property tries the `"A1-Site_0"` format for the whole list first; any
failure inside the comprehension (wrong number of split parts, or indexing
`well[0]` on an empty well token) aborts the branch, and the
`"1-Pos000_000"` format is tried; if that also fails a `ValueError` listing
the labels is raised.

Python `str.split(sep)` (non-empty `sep`) is embedded over character lists
with an explicit fuel argument (one unit per consumed character) so that it
is structurally recursive and evaluates inside the kernel. -/

def splitOnGo (sep : List Char) : Nat → List Char → List Char → List (List Char)
  | _, [], acc => [acc.reverse]
  | 0, s, acc => [acc.reverse ++ s]
  | fuel + 1, ch :: rest, acc =>
      if (ch :: rest).take sep.length = sep then
        acc.reverse :: splitOnGo sep fuel (List.drop sep.length (ch :: rest)) []
      else splitOnGo sep fuel rest (ch :: acc)

/-- Python `s.split(sep)` for a non-empty separator: left-to-right,
non-overlapping, keeping leading/trailing/adjacent empty fields. -/
def pySplit (s sep : String) : List String :=
  (splitOnGo sep.toList (s.toList.length + 1) s.toList []).map String.mk

/-- First branch on one label: `well, fov = label.split("-Site_")` then
`(well[0], well[1:], fov)`; `none` when the split does not yield exactly two
parts or the well token is empty (`well[0]` would raise `IndexError`). -/
def siteSplit (label : String) : Option (String × String × String) :=
  match pySplit label "-Site_" with
  | [well, fov] =>
      if well = "" then none
      else some (String.mk (well.toList.take 1), String.mk (well.toList.drop 1), fov)
  | _ => none

/-- Second branch on one label: `col, fov = label.split("-Pos")` then
`("0", col, fov.replace("_", ""))`; replacing the single-character pattern
`"_"` by the empty string removes every underscore. -/
def posSplit (label : String) : Option (String × String × String) :=
  match pySplit label "-Pos" with
  | [col, fov] => some ("0", col, String.mk (fov.toList.filter (fun ch => ch != '_')))
  | _ => none

def hcs_position_labels (stage_positions : List String) :
    Except String (List (String × String × String)) :=
  if stage_positions.isEmpty then
    .error "Stage position metadata not available."
  else
    match stage_positions.mapM siteSplit with
    | some res => .ok res
    | none =>
        match stage_positions.mapM posSplit with
        | some res => .ok res
        | none =>
            .error ("HCS position labels are in the format of A1-Site_0, H12-Site_1, or 1-Pos000_000 Got labels "
              ++ String.intercalate ", " stage_positions)

/-! ## `iohub.writer.HCSWriter`: `require_row` and `require_well`

Only the bookkeeping state (`self.rows`, `self.columns`, `self.wells`) and
the created group paths are modelled; `index` arguments are `Option Int`
(`None` default), and Python's `if index:` truthiness makes both `None` and
`0` count as "no index given". -/

structure PlateAxisMeta where
  name : String
deriving DecidableEq

structure RowEntry where
  id : Int
  meta : PlateAxisMeta
deriving DecidableEq

instance : Inhabited RowEntry := ⟨⟨0, ⟨""⟩⟩⟩

structure WellIndexMeta where
  path : String
  rowIndex : Int
  columnIndex : Int
deriving DecidableEq

structure WellRecord where
  meta : WellIndexMeta
  positions : List String
  image_meta_list : List (Int × String)
deriving DecidableEq

structure HCSState where
  rows : List (String × RowEntry)
  columns : List (String × RowEntry)
  wells : List (String × WellRecord)
  groups : List String
deriving DecidableEq

/-- The idempotent `zarr.Group.require_group` on an absolute path. -/
def HCSState.requireGroup (s : HCSState) (p : String) : HCSState :=
  if p ∈ s.groups then s else { s with groups := s.groups ++ [p] }

/-- Python truthiness of an optional integer: `None` and `0` are falsy. -/
def truthy : Option Int → Bool
  | none => false
  | some i => i != 0

/-- `HCSWriter.require_row`: for a registered name, a truthy `index` is
checked against the stored id (`ValueError` on conflict) and a falsy one is
ignored; for a new name a falsy `index` is replaced by `len(self.rows)`. -/
def require_row (s : HCSState) (name : String) (index : Option Int) :
    Except ZErr (HCSState × String) :=
  match lookupAssoc s.rows name with
  | some e =>
      if truthy index && e.id != index.getD 0 then
        .error (.valueError "Requested index conflicts with existing row index.")
      else .ok (s.requireGroup ("/" ++ name), name)
  | none =>
      let idx := if truthy index then index.getD 0 else (s.rows.length : Int)
      let s1 := { s with
        rows := s.rows ++ [(name, ({ id := idx, meta := { name := name } } : RowEntry))] }
      .ok (s1.requireGroup ("/" ++ name), name)

/-- `HCSWriter.require_well`: requires the parent row, then applies the
column logic (`if col_name in self.columns and col_index:` conflict check,
otherwise (re-)assignment of the column entry with `len(self.columns)` when
`col_index` is falsy), creates the well group, and registers the well record
under the group's absolute name if new. -/
def require_well (s : HCSState) (row_name col_name : String)
    (row_index col_index : Option Int) : Except ZErr (HCSState × String) :=
  match require_row s row_name row_index with
  | .error e => .error e
  | .ok (s1, _) =>
      let res2 : Except ZErr HCSState :=
        if (lookupAssoc s1.columns col_name).isSome && truthy col_index then
          if ((lookupAssoc s1.columns col_name).getD default).id != col_index.getD 0 then
            .error (.valueError "Requested index conflicts with existing column index.")
          else .ok s1
        else
          let ci := if truthy col_index then col_index.getD 0 else (s1.columns.length : Int)
          .ok { s1 with
            columns := setAssoc s1.columns col_name { id := ci, meta := { name := col_name } } }
      match res2 with
      | .error e => .error e
      | .ok s2 =>
          let well_name := row_name ++ "/" ++ col_name
          let wellAbs := "/" ++ well_name
          let s3 := s2.requireGroup wellAbs
          let s4 :=
            if (lookupAssoc s3.wells wellAbs).isSome then s3
            else
              let wmeta : WellIndexMeta :=
                { path := well_name
                  rowIndex := ((lookupAssoc s3.rows row_name).getD default).id
                  columnIndex := ((lookupAssoc s3.columns col_name).getD default).id }
              let wrec : WellRecord := { meta := wmeta, positions := [], image_meta_list := [] }
              { s3 with wells := s3.wells ++ [(wellAbs, wrec)] }
          .ok (s4, wellAbs)

def c10S : HCSState :=
  { rows := [("A", { id := 5, meta := { name := "A" } })]
    columns := [("1", { id := 7, meta := { name := "1" } })]
    wells := []
    groups := ["/A"] }

/-! ## `iohub.ngff` node hierarchy (module not under `src/`; modelled from
the spec, per §3, §4.1 and §8, with the repository test suite under
`src/tests/ngff` pinning the behavior where the two disagree) -/

/-- Modelled from the spec and the repository test: the effective scale
accumulator of `get_effective_scale` — start from ones and multiply in each
scale transform pointwise; translations and identities contribute nothing
(§3 "scale factors multiply per axis"; `test_ngff.py` `target_scales`). -/
def scaleFold (acc : List ℚ) (ts : List TransformationMeta) : List ℚ :=
  ts.foldl
    (fun a τ => match τ with
      | TransformationMeta.scale s => List.zipWith (· * ·) a s
      | _ => a) acc

/-- Modelled from the spec and the repository test: the effective
translation accumulator of `get_effective_translation` — start from zeros
and add in each translation transform pointwise; scales and identities
contribute nothing and do not rescale earlier translations (§3
"translations add per axis"; `test_ngff.py` `target_translations`, whose
case 4 records 2 = 1 + 1 where a scale-then-translate affine composition
would give 3). -/
def translationFold (acc : List ℚ) (ts : List TransformationMeta) : List ℚ :=
  ts.foldl
    (fun a τ => match τ with
      | TransformationMeta.translation t => List.zipWith (· + ·) a t
      | _ => a) acc

/-- Modelled from the spec: `iohub.ngff.Position.get_effective_scale`
composes the FOV-level pipeline with the dataset's own pipeline (§3) by
multiplying all scale factors per axis, over `n` axes. -/
def get_effective_scale (n : Nat) (fov_pipeline dataset_pipeline : List TransformationMeta) :
    List ℚ :=
  scaleFold (List.replicate n 1) (dataset_pipeline ++ fov_pipeline)

/-- Modelled from the spec: `iohub.ngff.Position.get_effective_translation`
composes the FOV-level pipeline with the dataset's own pipeline (§3) by
adding all translation components per axis, over `n` axes. -/
def get_effective_translation (n : Nat) (fov_pipeline dataset_pipeline : List TransformationMeta) :
    List ℚ :=
  translationFold (List.replicate n 0) (dataset_pipeline ++ fov_pipeline)

/-- The spec's words for the effective scale: the product of all scale
factors of a pipeline at one axis (non-scale transformations contribute
nothing). -/
def specScaleProduct (ts : List TransformationMeta) (i : Nat) : ℚ :=
  (ts.map (fun τ => match τ with | .scale s => s.getD i 1 | _ => 1)).prod

/-- The spec's words for the effective translation: the sum of all
translation components of a pipeline at one axis (non-translation
transformations contribute nothing). -/
def specTranslationSum (ts : List TransformationMeta) (i : Nat) : ℚ :=
  (ts.map (fun τ => match τ with | .translation t => t.getD i 0 | _ => 0)).sum

/-- A plate row or column index entry: a name and its stable integer id. -/
structure RowColEntry where
  name : String
  id : Nat
deriving DecidableEq

/-- A well of the plate, identified by its row and column names (the group
path is `row ++ "/" ++ col`). -/
structure WellSlot where
  row : String
  col : String
deriving DecidableEq

/-- Modelled from the spec: the plate-level state `rename_well` observes and
mutates — the Row and Column index lists and the Well index list; a well
path listed in the metadata corresponds to an existing group (§3 Plate
invariant), so the well list also stands for the groups. -/
structure PlateState where
  rows : List RowColEntry
  columns : List RowColEntry
  wells : List WellSlot
deriving DecidableEq

/-- Modelled from the spec: a character safe for a hierarchical path segment
(§4.1) — alphanumeric; this rejects whitespace and reserved characters such
as `?`. -/
def safeChar (ch : Char) : Bool := ch.isAlphanum

def tokenOk (s : String) : Bool := !s.toList.isEmpty && s.toList.all safeChar

/-- Modelled from the spec: a well path is `<row>/<col>` built from
path-safe tokens. -/
def parseWellPath (p : String) : Option (String × String) :=
  match pySplit p "/" with
  | [r, c] => if tokenOk r && tokenOk c then some (r, c) else none
  | _ => none

/-- The next unused integer id for a row/column index list. -/
def nextId (l : List RowColEntry) : Nat :=
  l.foldl (fun acc e => max acc (e.id + 1)) 0

/-- Modelled from the spec and the repository test: `iohub.ngff.Plate.rename_well`
(§4.1; the `iohub.ngff` module is not under `src/`): validate that both
paths are `<row>/<col>`-shaped with path-safe tokens, fail with
`ValueError` if the destination exists or the source does not, then
relocate the well and rewrite the Row/Column index lists — a destination
row/column entry is created when the name is new (next unused id), and any
entry whose row/column no longer backs a well is dropped: `test_ngff.py`
`test_rename_well` asserts the emptied source row and column disappear from
the plate metadata after the rename.  Validation precedes every mutation,
so an error leaves the plate unchanged (the pure model returns no new
state). -/
def rename_well (p : PlateState) (src dst : String) : Except String PlateState :=
  match parseWellPath src, parseWellPath dst with
  | some (sr, sc), some (dr, dc) =>
      if p.wells.any (fun w => w.row == dr && w.col == dc) then
        .error "Destination well already exists."
      else if !(p.wells.any (fun w => w.row == sr && w.col == sc)) then
        .error "Source well does not exist."
      else
        let wells' := p.wells.map fun w =>
          if w.row == sr && w.col == sc then { row := dr, col := dc } else w
        let rows1 := if p.rows.any (fun e => e.name == dr) then p.rows
          else p.rows ++ [{ name := dr, id := nextId p.rows }]
        let rows' := rows1.filter fun e => wells'.any fun w => w.row == e.name
        let cols1 := if p.columns.any (fun e => e.name == dc) then p.columns
          else p.columns ++ [{ name := dc, id := nextId p.columns }]
        let cols' := cols1.filter fun e => wells'.any fun w => w.col == e.name
        .ok { rows := rows', columns := cols', wells := wells' }
  | _, _ => .error "Well path must be like A/1 with path-safe row and column names."

/-- The row names of the plate after a successful rename, for exhibiting
concrete outcomes. -/
def renameRowNames (p : PlateState) (src dst : String) : Option (List String) :=
  match rename_well p src dst with
  | .ok p1 => some (p1.rows.map (·.name))
  | .error _ => none

/-- The column names of the plate after a successful rename. -/
def renameColNames (p : PlateState) (src dst : String) : Option (List String) :=
  match rename_well p src dst with
  | .ok p1 => some (p1.columns.map (·.name))
  | .error _ => none

def c5P : PlateState :=
  { rows := [{ name := "B", id := 0 }]
    columns := [{ name := "03", id := 0 }]
    wells := [{ row := "B", col := "03" }] }

def c6P : PlateState :=
  { rows := [{ name := "B", id := 0 }, { name := "C", id := 1 }]
    columns := [{ name := "2", id := 0 }, { name := "4", id := 1 }]
    wells := [{ row := "B", col := "2" }, { row := "C", col := "4" }] }

/-- A dataset of an image node: its path and its own transform pipeline. -/
structure FOVDataset where
  path : String
  transforms : List TransformationMeta
deriving DecidableEq

/-- Modelled from the spec: the state of an image (FOV) node observed by
`set_scale` — the axis-name list, the FOV-level pipeline, the datasets of
multiscales[0], and the reserved `"iohub"` attribute section holding audit
entries. -/
structure FOVNode where
  axes : List String
  fovTransforms : List TransformationMeta
  datasets : List FOVDataset
  iohubAttrs : List (String × ℚ)
deriving DecidableEq

/-- The scale value currently recorded for one axis in a pipeline: the
targeted entry of the last scale transform, if any. -/
def priorScaleAt (ts : List TransformationMeta) (i : Nat) : Option ℚ :=
  ts.foldl
    (fun acc τ => match τ with
      | TransformationMeta.scale s => some (s.getD i 1)
      | _ => acc) none

/-- Rewrite the scale component of a pipeline at one axis index: scale
transforms get entry `i` replaced, translations and identities are kept
verbatim. -/
def setScaleTransforms (ts : List TransformationMeta) (i : Nat) (v : ℚ) :
    List TransformationMeta :=
  ts.map fun τ => match τ with
    | TransformationMeta.scale s => TransformationMeta.scale (s.set i v)
    | other => other

/-- Modelled from the spec: `iohub.ngff.Position.set_scale` (§4.1; the
`iohub.ngff` module is not under `src/`): fails with `ValueError` when
`new_scale ≤ 0`; otherwise rewrites the scale component of the named
dataset's own transform for the named axis only, leaving translations,
other axes, other datasets and the FOV-level pipeline untouched, and
records the previous scale value under the reserved audit key
`"prior_<axis>_scale"` in the `"iohub"` attribute section. -/
def set_scale (node : FOVNode) (image axis_name : String) (new_scale : ℚ) :
    Except String FOVNode :=
  if new_scale ≤ 0 then .error "Scale must be positive."
  else
    match node.axes.findIdx? (· == axis_name) with
    | none => .error "Axis not found."
    | some i =>
        match node.datasets.find? (·.path == image) with
        | none => .error "Dataset not found."
        | some d =>
            let datasets' := node.datasets.map fun d0 =>
              if d0.path == image then
                { d0 with transforms := setScaleTransforms d0.transforms i new_scale }
              else d0
            let attrs' := match priorScaleAt d.transforms i with
              | none => node.iohubAttrs
              | some q => setAssoc node.iohubAttrs ("prior_" ++ axis_name ++ "_scale") q
            .ok { node with datasets := datasets', iohubAttrs := attrs' }

def c8D : FOVDataset :=
  { path := "0"
    transforms := [TransformationMeta.translation [1, 2, 3, 4, 5],
                   TransformationMeta.scale [5, 4, 3, 2, 1]] }

def c8Node : FOVNode :=
  { axes := ["t", "c", "z", "y", "x"], fovTransforms := [], datasets := [c8D], iohubAttrs := [] }

/-- Modelled from the spec: the state of a single-FOV store observed by
`create_image` and the readers — the channel-name list of the owning
collection, the persisted omero channel labels, the chunked arrays, and the
multiscale dataset entries (§3 FOV invariant, §4.1). -/
structure Position where
  channel_names : List String
  omero_labels : List String
  arrays : List (String × ZArr)
  datasets : List DatasetMeta
deriving Inhabited

/-- A freshly created single-FOV store: the omero labels are written from
the channel-name list, no arrays or datasets yet. -/
def mkPosition (channel_names : List String) : Position :=
  { channel_names := channel_names, omero_labels := channel_names
    arrays := [], datasets := [] }

/-- Modelled from the spec: `iohub.ngff.Position.create_image` (§4.1; the
`iohub.ngff` module is not under `src/`): validates array rank ≥ 3 and that
the channel-axis length equals the channel-name list length (for rank < 4
the implied channel count is 1), else `ValueError` ("channel count
mismatch"); creates a chunked array sized and chunked to the data, writes
the full array, and appends/overwrites a Dataset entry in the multiscale
record. -/
def create_image (pos : Position) (name : String) (data : NDArr)
    (transform : Option (List TransformationMeta)) : Except String Position :=
  if data.shape.length < 3 then .error "Data must have at least 3 dimensions."
  else if (if 4 ≤ data.shape.length then data.shape.getD (data.shape.length - 4) 1 else 1)
      ≠ pos.channel_names.length then
    .error "channel count mismatch"
  else
    let arr : ZArr :=
      { shape := data.shape, dtype := data.dtype, chunks := data.shape, val := data.val }
    let datasets' :=
      if pos.datasets.any (·.path == name) then
        pos.datasets.map fun dm => if dm.path == name then dataset_meta name transform else dm
      else pos.datasets ++ [dataset_meta name transform]
    .ok { pos with arrays := setAssoc pos.arrays name arr, datasets := datasets' }

/-- Modelled from the spec: the external OME-NGFF reference reader recovers
the channel names from the persisted omero labels (§6 persisted layout). -/
def refReaderChannelNames (pos : Position) : List String := pos.omero_labels

/-- Modelled from the spec: the reference reader recovers the dataset paths
from the persisted multiscales record. -/
def refReaderDatasetPaths (pos : Position) : List String := pos.datasets.map (·.path)

/-- Modelled from the spec: the reference reader opens the chunked array
under a dataset path (shape, dtype and contents as persisted). -/
def refReaderArray (pos : Position) (name : String) : Option ZArr :=
  lookupAssoc pos.arrays name

def c9Data : NDArr := { shape := [1, 2, 2, 2, 2], dtype := "int16", val := fun _ => 3 }

/-! ## Helper lemmas about the store model -/

theorem lookupAssoc_setAssoc_self {α : Type} (l : List (String × α)) (n : String) (v : α) :
    lookupAssoc (setAssoc l n v) n = some v := by
  induction l with
  | nil => simp [setAssoc, lookupAssoc]
  | cons hd tl ih =>
      by_cases h : hd.1 == n
      · simp [setAssoc, h, lookupAssoc]
      · simp only [setAssoc]
        rw [if_neg (by simpa using h)]
        simp [lookupAssoc, h, ih]

theorem lookupAssoc_setAssoc_ne {α : Type} (l : List (String × α)) (n m : String) (v : α)
    (h : m ≠ n) : lookupAssoc (setAssoc l n v) m = lookupAssoc l m := by
  induction l with
  | nil => simp [setAssoc, lookupAssoc, Ne.symm h]
  | cons hd tl ih =>
      by_cases hk : hd.1 == n
      · have hd1 : hd.1 = n := by simpa using hk
        simp [setAssoc, hk, lookupAssoc, hd1, h, Ne.symm h]
      · simp only [setAssoc]
        rw [if_neg (by simpa using hk)]
        by_cases hm : hd.1 == m
        · simp [lookupAssoc, hm]
        · simp [lookupAssoc, hm, ih]

theorem Group.get_set_self (g : Group) (n : String) (o : StoreObj) :
    (g.set n o).get n = some o :=
  lookupAssoc_setAssoc_self g.objs n o

/-! ## Claims about `OMEZarrWriter.require_array` and `write_zstack` -/

/-- C7: for a 3-element `zyx_shape`, `require_array` creates and returns a
zero-filled array of shape `(1, 1, Z, Y, X)` when the name is unbound,
returns an existing array unchanged when its trailing three dimensions equal
`zyx_shape`, and raises `FileExistsError` ("incompatible shape") when they
differ. -/
theorem C7_require_array_cases (g : Group) (name : String) (zyx : List Nat)
    (dtype : String) (h3 : zyx.length = 3) :
    (g.get name = none →
      require_array g name zyx dtype none =
        .ok (g.set name (.arr (zerosZArr (1 :: 1 :: zyx) zyx dtype)),
             zerosZArr (1 :: 1 :: zyx) zyx dtype) ∧
      (zerosZArr (1 :: 1 :: zyx) zyx dtype).shape = 1 :: 1 :: zyx ∧
      ∀ idx, (zerosZArr (1 :: 1 :: zyx) zyx dtype).val idx = 0) ∧
    (∀ a, g.get name = some (.arr a) → a.shape.drop (a.shape.length - 3) = zyx →
      require_array g name zyx dtype none = .ok (g, a)) ∧
    (∀ a, g.get name = some (.arr a) → a.shape.drop (a.shape.length - 3) ≠ zyx →
      require_array g name zyx dtype none =
        .error (.fileExistsError "An array exists with incompatible shape.")) := by
  refine ⟨fun hnone => ⟨?_, rfl, fun idx => rfl⟩,
          fun a hsome hmatch => ?_, fun a hsome hmis => ?_⟩
  · simp [require_array, h3, hnone]
  · simp [require_array, h3, hsome, hmatch]
  · simp [require_array, h3, hsome, hmis]

theorem C7_require_array_cases_witness :
    require_array c7G "0" [2, 3, 4] "uint16" none =
      .ok (c7G.set "0" (.arr (zerosZArr [1, 1, 2, 3, 4] [2, 3, 4] "uint16")),
           zerosZArr [1, 1, 2, 3, 4] [2, 3, 4] "uint16") :=
  ((C7_require_array_cases c7G "0" [2, 3, 4] "uint16" (by decide)).1 rfl).1

/-- C2 (amended): `write_zstack` raises `ValueError` when the data has fewer
than 3 dimensions, and, when the dimension check passes, when either index
is negative; in both cases the error is raised before any array is created,
resized or written and before any metadata is updated, leaving the store and
writer state unchanged. -/
theorem C2_write_zstack_validation (w : OMEZarrWriter) (g : Group) (data : NDArr)
    (t c : Int) (tr : Option (List TransformationMeta)) (nm : Option String)
    (am : Bool) :
    (data.shape.length < 3 →
      write_zstack w g data t c tr nm am =
        .err (.valueError "Data has less than 3 dimensions.") g w) ∧
    (¬ data.shape.length < 3 → t < 0 ∨ c < 0 →
      write_zstack w g data t c tr nm am =
        .err (.valueError "Time and channel indices must be non-negative.") g w) := by
  constructor
  · intro h
    simp [write_zstack, h]
  · intro h hneg
    simp [write_zstack, h, hneg]

theorem C2_write_zstack_validation_witness :
    write_zstack cW cG c2LowDim 0 0 none none true =
      .err (.valueError "Data has less than 3 dimensions.") cG cW :=
  (C2_write_zstack_validation cW cG c2LowDim 0 0 none none true).1 (by decide)

/-- C2 (counterexample): calling `write_zstack` with 4-dimensional data of
shape `(1, 2, 2, 2)` does raise a `ValueError` (zarr's slab-shape check),
but only after the 5D array has been created in the store: the resulting
store state is not unchanged, refuting the claim that for data that is not
exactly 3-dimensional the error is raised before any array is created. -/
theorem C2_counterexample :
    c2Run.isValueErr = true ∧ (c2Run.group.get "0").isSome = true := by
  exact ⟨rfl, rfl⟩

/-- Helper: when the root attributes are still unset or the writer already
holds a well-formed `images_meta`, the metadata dump after a successful slab
write succeeds and does not touch the group members. -/
theorem finish_zstack_spec (w : OMEZarrWriter) (g2 : Group) (name : String)
    (tr : Option (List TransformationMeta)) (am : Bool)
    (hmeta : g2.attrs = none ∨
      ∃ im m0 ms, w.images_meta = some im ∧ im.multiscales = m0 :: ms) :
    (finish_zstack w g2 name tr am).isOk = true ∧
    ∀ n, (finish_zstack w g2 name tr am).group.get n = g2.get n := by
  cases am with
  | false => exact ⟨rfl, fun n => rfl⟩
  | true =>
    rcases hattrs : g2.attrs with _ | x
    · simp [finish_zstack, dump_zstack_meta, hattrs, WResult.isOk, WResult.group, Group.get]
    · rcases hmeta with h | ⟨im, m0, ms, him, hms⟩
      · rw [hattrs] at h
        exact absurd h (by simp)
      · by_cases hmem : (dataset_meta name tr).path ∈ m0.get_dataset_paths
        · simp [finish_zstack, dump_zstack_meta, hattrs, him, hms, hmem,
            WResult.isOk, WResult.group, Group.get]
        · simp [finish_zstack, dump_zstack_meta, hattrs, him, hms, hmem,
            WResult.isOk, WResult.group, Group.get]

/-- Helper: the group returned by a successful `write_zstack` holds the
written array under the written name. -/
theorem finish_write_conclusion (w : OMEZarrWriter) (g : Group) (name : String)
    (tr : Option (List TransformationMeta)) (am : Bool) (a2 : ZArr)
    (hmeta : g.attrs = none ∨
      ∃ im m0 ms, w.images_meta = some im ∧ im.multiscales = m0 :: ms) :
    (finish_zstack w (g.set name (.arr a2)) name tr am).isOk = true ∧
    (finish_zstack w (g.set name (.arr a2)) name tr am).group.get name = some (.arr a2) := by
  obtain ⟨hok, hget⟩ := finish_zstack_spec w (g.set name (.arr a2)) name tr am hmeta
  exact ⟨hok, by rw [hget]; exact Group.get_set_self g name (.arr a2)⟩

/-- C1: a `write_zstack` call on an existing 5D array of shape
`(T, C, Z, Y, X)` with matching `(Z, Y, X)` data and non-negative indices
succeeds, the T and C extents afterwards are exactly
`max(previous extent, index + 1)` independently per axis (so no extent ever
shrinks), and the `(Z, Y, X)` slab is written at
`[time_index, channel_index]`. -/
theorem C1_write_zstack_growth (w : OMEZarrWriter) (g : Group) (data : NDArr)
    (a : ZArr) (T C Z Y X : Nat) (t c : Int)
    (tr : Option (List TransformationMeta)) (am : Bool)
    (hex : g.get w.arr_name = some (.arr a))
    (ha : a.shape = [T, C, Z, Y, X])
    (hd : data.shape = [Z, Y, X])
    (ht : 0 ≤ t) (hc : 0 ≤ c)
    (hmeta : g.attrs = none ∨
      ∃ im m0 ms, w.images_meta = some im ∧ im.multiscales = m0 :: ms) :
    (write_zstack w g data t c tr none am).isOk = true ∧
    ∃ a', (write_zstack w g data t c tr none am).group.get w.arr_name = some (.arr a') ∧
      a'.shape = [max T (t.toNat + 1), max C (c.toNat + 1), Z, Y, X] ∧
      T ≤ max T (t.toNat + 1) ∧ C ≤ max C (c.toNat + 1) ∧
      ∀ z y x : Nat, a'.val [t.toNat, c.toNat, z, y, x] = data.val [z, y, x] := by
  obtain ⟨ds, ddt, dval⟩ := data
  obtain ⟨sa, adt, ach, aval⟩ := a
  change ds = [Z, Y, X] at hd
  change sa = [T, C, Z, Y, X] at ha
  subst hd
  subst ha
  have hneg : ¬ (t < 0 ∨ c < 0) := by omega
  have hreq : require_array g w.arr_name [Z, Y, X] ddt none =
      .ok (g, ⟨[T, C, Z, Y, X], adt, ach, aval⟩) := by
    simp [require_array, hex]
  by_cases hcond : T ≤ t.toNat ∨ C ≤ c.toNat
  · simp only [write_zstack, hneg, hreq, hcond, ZArr.resize, List.getD_cons_zero,
      List.getD_cons_succ, List.length_cons, List.length_nil, List.drop_succ_cons,
      List.drop_zero, Nat.lt_irrefl, Nat.sub_self, if_true, ite_true, if_false,
      ite_false, not_false_eq_true, Nat.zero_add]
    refine ⟨(finish_write_conclusion w g w.arr_name tr am _ hmeta).1, _,
      (finish_write_conclusion w g w.arr_name tr am _ hmeta).2, ?_, ?_, ?_, ?_⟩
    · simp [Nat.max_comm]
    · exact le_max_left _ _
    · exact le_max_left _ _
    · intro z y x
      simp
  · simp only [write_zstack, hneg, hreq, hcond, List.getD_cons_zero,
      List.getD_cons_succ, List.length_cons, List.length_nil, List.drop_succ_cons,
      List.drop_zero, Nat.lt_irrefl, Nat.sub_self, if_true, ite_true, if_false,
      ite_false, not_false_eq_true, Nat.zero_add]
    refine ⟨(finish_write_conclusion w g w.arr_name tr am _ hmeta).1, _,
      (finish_write_conclusion w g w.arr_name tr am _ hmeta).2, ?_, ?_, ?_, ?_⟩
    · rw [show max T (t.toNat + 1) = T from by omega,
        show max C (c.toNat + 1) = C from by omega]
    · exact le_max_left _ _
    · exact le_max_left _ _
    · intro z y x
      simp

/-- Witness for C1: starting from an existing `(1, 1, 1, 1, 1)` array,
writing at `(2, 0)` and then `(0, 3)` succeeds and leaves a final shape
`(3, 4, 1, 1, 1)`, i.e. T ≥ 3 and C ≥ 4. -/
theorem C1_write_zstack_growth_witness :
    c1Run2.isOk = true ∧ arrShapeAt c1Run2.group "0" = some [3, 4, 1, 1, 1] := by
  obtain ⟨hok1, a1, hget1, hshape1, -, -, hval1⟩ :=
    C1_write_zstack_growth cW c1G0 c1Data c1Arr 1 1 1 1 1 2 0 none true
      rfl rfl rfl (by decide) (by decide) (Or.inl rfl)
  have hs1 : a1.shape = [3, 1, 1, 1, 1] := by simpa using hshape1
  have hget1' : c1Run1.group.get c1Run1.writer.arr_name = some (.arr a1) := hget1
  obtain ⟨hok2, a2, hget2, hshape2, -, -, hval2⟩ :=
    C1_write_zstack_growth c1Run1.writer c1Run1.group c1Data a1 3 1 1 1 1 0 3 none true
      hget1' hs1 rfl (by decide) (by decide)
      (Or.inr ⟨_, _, _, rfl, rfl⟩)
  have hs2 : a2.shape = [3, 4, 1, 1, 1] := by simpa using hshape2
  have hget2' : c1Run2.group.get "0" = some (.arr a2) := hget2
  refine ⟨hok2, ?_⟩
  simp only [arrShapeAt, hget2', hs2]

/-- C3 (counterexample): the label `"AA1-Site_0"` is of the form
`<row><col>-Site_<n>` with letters-prefix `"AA"` and digits-suffix `"1"`,
but the code returns `("A", "A1", "0")` — it splits off the first character
of the well token, not the letters-prefix — refuting the claimed mapping to
`("AA", "1", "0")`. -/
theorem C3_counterexample :
    hcs_position_labels ["AA1-Site_0"] = .ok [("A", "A1", "0")] ∧
    ("A", "A1", "0") ≠ (("AA", "1", "0") : String × String × String) := by
  exact ⟨rfl, by decide⟩

/-- C3 (amended): for a non-empty list of labels,
`hcs_position_labels` maps every label of the form `<well>-Site_<n>` with a
non-empty well token to `(first character of well, remainder of well, n)`;
if some label fails that format, it maps every label of the form
`<n>-Pos<a>_<b>` to `("0", n, a_b with underscores removed)`; and if some
label fails both formats it raises `ValueError` whose message lists the
labels. -/
theorem C3_hcs_position_labels (stage : List String) (hne : stage ≠ []) :
    (∀ w fov, pySplit (w ++ "-Site_" ++ fov) "-Site_" = [w, fov] → w ≠ "" →
      siteSplit (w ++ "-Site_" ++ fov) =
        some (String.mk (w.toList.take 1), String.mk (w.toList.drop 1), fov)) ∧
    (∀ col fov, pySplit (col ++ "-Pos" ++ fov) "-Pos" = [col, fov] →
      posSplit (col ++ "-Pos" ++ fov) =
        some ("0", col, String.mk (fov.toList.filter (fun ch => ch != '_')))) ∧
    (∀ res, stage.mapM siteSplit = some res → hcs_position_labels stage = .ok res) ∧
    (stage.mapM siteSplit = none → ∀ res, stage.mapM posSplit = some res →
      hcs_position_labels stage = .ok res) ∧
    (stage.mapM siteSplit = none → stage.mapM posSplit = none →
      hcs_position_labels stage =
        .error ("HCS position labels are in the format of A1-Site_0, H12-Site_1, or 1-Pos000_000 Got labels "
          ++ String.intercalate ", " stage)) := by
  have hemp : ¬ stage.isEmpty := by
    cases stage with
    | nil => exact absurd rfl hne
    | cons a l => simp
  refine ⟨fun w fov hsp hw => ?_, fun col fov hsp => ?_,
    fun res hsite => ?_, fun hsite res hpos => ?_, fun hsite hpos => ?_⟩
  · simp [siteSplit, hsp, hw]
  · simp [posSplit, hsp]
  · unfold hcs_position_labels
    rw [if_neg hemp, hsite]
  · unfold hcs_position_labels
    rw [if_neg hemp, hsite, hpos]
  · unfold hcs_position_labels
    rw [if_neg hemp, hsite, hpos]

/-- Witness for C3 (amended): the two formats from the docstring parse as
described, and a mixed-format list raises the `ValueError`. -/
theorem C3_hcs_position_labels_witness :
    hcs_position_labels ["A1-Site_0", "H12-Site_1"] =
      .ok [("A", "1", "0"), ("H", "12", "1")] ∧
    hcs_position_labels ["1-Pos000_000", "2-Pos000_001"] =
      .ok [("0", "1", "000000"), ("0", "2", "000001")] ∧
    hcs_position_labels ["A1-Site_0", "what"] =
      .error ("HCS position labels are in the format of A1-Site_0, H12-Site_1, or 1-Pos000_000 Got labels "
        ++ String.intercalate ", " ["A1-Site_0", "what"]) := by
  refine ⟨?_, ?_, ?_⟩
  · exact (C3_hcs_position_labels ["A1-Site_0", "H12-Site_1"] (by decide)).2.2.1 _ rfl
  · exact (C3_hcs_position_labels ["1-Pos000_000", "2-Pos000_001"] (by decide)).2.2.2.1 rfl _ rfl
  · exact (C3_hcs_position_labels ["A1-Site_0", "what"] (by decide)).2.2.2.2 rfl rfl

/-- Helper: a requested row index of 0 is falsy in Python, so `require_row`
behaves exactly as with no index. -/
theorem require_row_zero (s : HCSState) (name : String) :
    require_row s name (some 0) = require_row s name none := by
  cases h : lookupAssoc s.rows name <;>
    simp [require_row, h, truthy]

/-- C10: an explicit index argument equal to 0 behaves exactly as if no
index had been given, for `require_row` and for both index arguments of
`require_well`; consequently, for an already-registered name the conflict
check against the stored id is skipped even when the stored id differs
from 0, and a new name gets the auto-assigned id `len(self.rows)`
(resp. `len(self.columns)`), ignoring the requested 0. -/
theorem C10_zero_index_falsy :
    (∀ s name, require_row s name (some 0) = require_row s name none) ∧
    (∀ s r cn ci, require_well s r cn (some 0) ci = require_well s r cn none ci) ∧
    (∀ s r cn ri, require_well s r cn ri (some 0) = require_well s r cn ri none) ∧
    (∀ s name e, lookupAssoc s.rows name = some e →
      require_row s name (some 0) = .ok (s.requireGroup ("/" ++ name), name)) ∧
    (∀ s name, lookupAssoc s.rows name = none →
      require_row s name (some 0) =
        .ok (({ s with rows := s.rows ++
            [(name, ({ id := (s.rows.length : Int), meta := { name := name } } : RowEntry))] }
          : HCSState).requireGroup ("/" ++ name), name)) := by
  refine ⟨require_row_zero, fun s r cn ci => ?_, fun s r cn ri => ?_,
    fun s name e h => ?_, fun s name h => ?_⟩
  · simp only [require_well, require_row_zero]
  · simp only [require_well, truthy, Option.getD_some, Option.getD_none, bne_self_eq_false,
      Bool.and_false]
  · simp [require_row, h, truthy]
  · simp [require_row, h, truthy]

/-- Witness for C10: on a state whose row "A" has stored id 5 and whose
column "1" has stored id 7, requesting index 0 raises no conflict, and a
new row "B" requested with index 0 gets the auto id `len(rows) = 1`. -/
theorem C10_zero_index_falsy_witness :
    require_row c10S "A" (some 0) = require_row c10S "A" none ∧
    require_well c10S "A" "1" (some 0) (some 0) = require_well c10S "A" "1" none (some 0) ∧
    require_well c10S "A" "1" (some 5) (some 0) = require_well c10S "A" "1" (some 5) none ∧
    require_row c10S "A" (some 0) = .ok (c10S.requireGroup "/A", "A") ∧
    require_row c10S "B" (some 0) =
      .ok (({ c10S with rows := c10S.rows ++
          [("B", ({ id := (1 : Int), meta := { name := "B" } } : RowEntry))] }
        : HCSState).requireGroup "/B", "B") := by
  refine ⟨C10_zero_index_falsy.1 c10S "A", C10_zero_index_falsy.2.1 c10S "A" "1" (some 0),
    C10_zero_index_falsy.2.2.1 c10S "A" "1" (some 5),
    C10_zero_index_falsy.2.2.2.1 c10S "A" _ rfl, ?_⟩
  have h := C10_zero_index_falsy.2.2.2.2 c10S "B" rfl
  simpa using h

/-- Helper: along a pipeline whose scale vectors all have length `n`, the
scale accumulator keeps length `n` and each of its entries is multiplied by
the product of the pipeline's scale factors at that axis. -/
theorem scaleFold_getD (n : Nat) (ts : List TransformationMeta) :
    ∀ acc : List ℚ, (∀ s, TransformationMeta.scale s ∈ ts → s.length = n) →
      acc.length = n →
      (scaleFold acc ts).length = n ∧
      ∀ i, i < n → (scaleFold acc ts).getD i 1 = acc.getD i 1 * specScaleProduct ts i := by
  induction ts with
  | nil =>
      intro acc hwf hlen
      exact ⟨hlen, fun i hi => by simp [scaleFold, specScaleProduct]⟩
  | cons τ ts ih =>
      intro acc hwf hlen
      have hwf' : ∀ s, TransformationMeta.scale s ∈ ts → s.length = n :=
        fun s hs => hwf s (List.mem_cons_of_mem _ hs)
      cases τ with
      | identity =>
          have h := ih acc hwf' hlen
          refine ⟨h.1, fun i hi => ?_⟩
          rw [show scaleFold acc (.identity :: ts) = scaleFold acc ts from rfl, h.2 i hi]
          simp [specScaleProduct]
      | scale s =>
          have hs : s.length = n := hwf s (List.mem_cons_self _ _)
          have hlen' : (List.zipWith (· * ·) acc s).length = n := by
            simp [List.length_zipWith, hs, hlen]
          have h := ih (List.zipWith (· * ·) acc s) hwf' hlen'
          refine ⟨h.1, fun i hi => ?_⟩
          rw [show scaleFold acc (.scale s :: ts) =
            scaleFold (List.zipWith (· * ·) acc s) ts from rfl, h.2 i hi]
          have e1 : (List.zipWith (· * ·) acc s).getD i 1 = acc.getD i 1 * s.getD i 1 := by
            have hi1 : i < acc.length := by omega
            have hi2 : i < s.length := by omega
            have hi3 : i < (List.zipWith (· * ·) acc s).length := by rw [hlen']; exact hi
            rw [List.getD_eq_getElem _ _ hi3, List.getD_eq_getElem _ _ hi1,
              List.getD_eq_getElem _ _ hi2, List.getElem_zipWith]
          rw [e1]
          simp [specScaleProduct, mul_assoc]
      | translation t =>
          have h := ih acc hwf' hlen
          refine ⟨h.1, fun i hi => ?_⟩
          rw [show scaleFold acc (.translation t :: ts) = scaleFold acc ts from rfl, h.2 i hi]
          simp [specScaleProduct]

/-- Helper: along a pipeline whose translation vectors all have length `n`,
the translation accumulator keeps length `n` and each of its entries gains
the sum of the pipeline's translation components at that axis. -/
theorem translationFold_getD (n : Nat) (ts : List TransformationMeta) :
    ∀ acc : List ℚ, (∀ t, TransformationMeta.translation t ∈ ts → t.length = n) →
      acc.length = n →
      (translationFold acc ts).length = n ∧
      ∀ i, i < n →
        (translationFold acc ts).getD i 0 = acc.getD i 0 + specTranslationSum ts i := by
  induction ts with
  | nil =>
      intro acc hwf hlen
      exact ⟨hlen, fun i hi => by simp [translationFold, specTranslationSum]⟩
  | cons τ ts ih =>
      intro acc hwf hlen
      have hwf' : ∀ t, TransformationMeta.translation t ∈ ts → t.length = n :=
        fun t ht => hwf t (List.mem_cons_of_mem _ ht)
      cases τ with
      | identity =>
          have h := ih acc hwf' hlen
          refine ⟨h.1, fun i hi => ?_⟩
          rw [show translationFold acc (.identity :: ts) = translationFold acc ts from rfl,
            h.2 i hi]
          simp [specTranslationSum]
      | scale s =>
          have h := ih acc hwf' hlen
          refine ⟨h.1, fun i hi => ?_⟩
          rw [show translationFold acc (.scale s :: ts) = translationFold acc ts from rfl,
            h.2 i hi]
          simp [specTranslationSum]
      | translation t =>
          have ht : t.length = n := hwf t (List.mem_cons_self _ _)
          have hlen' : (List.zipWith (· + ·) acc t).length = n := by
            simp [List.length_zipWith, ht, hlen]
          have h := ih (List.zipWith (· + ·) acc t) hwf' hlen'
          refine ⟨h.1, fun i hi => ?_⟩
          rw [show translationFold acc (.translation t :: ts) =
            translationFold (List.zipWith (· + ·) acc t) ts from rfl, h.2 i hi]
          have e1 : (List.zipWith (· + ·) acc t).getD i 0 = acc.getD i 0 + t.getD i 0 := by
            have hi1 : i < acc.length := by omega
            have hi2 : i < t.length := by omega
            have hi3 : i < (List.zipWith (· + ·) acc t).length := by rw [hlen']; exact hi
            rw [List.getD_eq_getElem _ _ hi3, List.getD_eq_getElem _ _ hi1,
              List.getD_eq_getElem _ _ hi2, List.getElem_zipWith]
          rw [e1]
          simp [specTranslationSum, add_assoc]

/-- C4 (counterexample): the program sums translations without rescaling by
later scales, so on the claim's instance — FOV-level `{scale=2,2,2,2,2}`
with dataset-level `{translation=1,1,1,1,1}` — the effective translation is
`{1,1,1,1,1}`, not the claimed `{2,2,2,2,2}`; the repository test's case of
`[scale 2, translation 1]` at both levels yields `{2,2,2,2,2}` (where a
scale-then-translate affine composition would give 3), as `test_ngff.py`
records. -/
theorem C4_counterexample :
    get_effective_translation 5 [TransformationMeta.scale (List.replicate 5 2)]
      [TransformationMeta.translation (List.replicate 5 1)] = List.replicate 5 1 ∧
    List.replicate 5 (1 : ℚ) ≠ List.replicate 5 (2 : ℚ) ∧
    get_effective_translation 5
      [TransformationMeta.scale (List.replicate 5 2),
       TransformationMeta.translation (List.replicate 5 1)]
      [TransformationMeta.scale (List.replicate 5 2),
       TransformationMeta.translation (List.replicate 5 1)] = List.replicate 5 2 := by
  refine ⟨?_, ?_, ?_⟩
  · simp [get_effective_translation, translationFold, List.replicate_succ]
  · intro h
    have h0 : (List.replicate 5 (1 : ℚ)).getD 0 0 = (List.replicate 5 (2 : ℚ)).getD 0 0 := by
      rw [h]
    norm_num [List.replicate_succ] at h0
  · simp [get_effective_translation, translationFold, List.replicate_succ]
    norm_num

/-- C4 (amended): per axis, the effective scale is the product of all scale
factors in both pipelines, and the effective translation is the sum of all
translation components in both pipelines — translations are not rescaled by
the composed scale; the claim's instance of a FOV-level scale 2 with a
dataset-level translation 1 therefore yields effective scale `{2,...}` and
effective translation `{1,...}`. -/
theorem C4_effective_scale_translation (n : Nat) (fov ds : List TransformationMeta)
    (hwfs : ∀ s, TransformationMeta.scale s ∈ ds ++ fov → s.length = n)
    (hwft : ∀ t, TransformationMeta.translation t ∈ ds ++ fov → t.length = n) :
    (∀ i, i < n →
      (get_effective_scale n fov ds).getD i 1 = specScaleProduct (ds ++ fov) i) ∧
    (∀ i, i < n →
      (get_effective_translation n fov ds).getD i 0 = specTranslationSum (ds ++ fov) i) ∧
    (get_effective_scale 5 [.scale (List.replicate 5 2)] [.translation (List.replicate 5 1)] =
        List.replicate 5 2 ∧
     get_effective_translation 5 [.scale (List.replicate 5 2)]
        [.translation (List.replicate 5 1)] = List.replicate 5 1) := by
  refine ⟨fun i hi => ?_, fun i hi => ?_, ?_, ?_⟩
  · have h := scaleFold_getD n (ds ++ fov) (List.replicate n 1) hwfs (by simp)
    have hid : (List.replicate n (1 : ℚ)).getD i 1 = 1 := by
      rw [List.getD_eq_getElem _ _ (by simpa using hi)]
      simp
    rw [get_effective_scale, h.2 i hi, hid, one_mul]
  · have h := translationFold_getD n (ds ++ fov) (List.replicate n 0) hwft (by simp)
    have hid : (List.replicate n (0 : ℚ)).getD i 0 = 0 := by
      rw [List.getD_eq_getElem _ _ (by simpa using hi)]
      simp
    rw [get_effective_translation, h.2 i hi, hid, zero_add]
  · simp [get_effective_scale, scaleFold, List.replicate_succ]
  · simp [get_effective_translation, translationFold, List.replicate_succ]

/-- Witness for C4 (amended): the product and sum laws applied on the
amended instance at axis 0 — effective scale `2`, effective translation
`1`. -/
theorem C4_effective_scale_translation_witness :
    (get_effective_scale 5 [TransformationMeta.scale (List.replicate 5 2)]
        [TransformationMeta.translation (List.replicate 5 1)]).getD 0 1 =
      specScaleProduct ([TransformationMeta.translation (List.replicate 5 1)] ++
        [TransformationMeta.scale (List.replicate 5 2)]) 0 ∧
    (get_effective_translation 5 [TransformationMeta.scale (List.replicate 5 2)]
        [TransformationMeta.translation (List.replicate 5 1)]).getD 0 0 =
      specTranslationSum ([TransformationMeta.translation (List.replicate 5 1)] ++
        [TransformationMeta.scale (List.replicate 5 2)]) 0 := by
  have hws : ∀ s, TransformationMeta.scale s ∈
      [TransformationMeta.translation (List.replicate 5 1)] ++
        [TransformationMeta.scale (List.replicate 5 2)] → s.length = 5 := by
    intro s hs
    simp only [List.mem_append, List.mem_singleton] at hs
    rcases hs with h | h
    · simp at h
    · injection h with h'
      subst h'
      simp
  have hwt : ∀ t, TransformationMeta.translation t ∈
      [TransformationMeta.translation (List.replicate 5 1)] ++
        [TransformationMeta.scale (List.replicate 5 2)] → t.length = 5 := by
    intro t ht
    simp only [List.mem_append, List.mem_singleton] at ht
    rcases ht with h | h
    · injection h with h'
      subst h'
      simp
    · simp at h
  have h := C4_effective_scale_translation 5 [TransformationMeta.scale (List.replicate 5 2)]
    [TransformationMeta.translation (List.replicate 5 1)] hws hwt
  exact ⟨h.1 0 (by omega), h.2.1 0 (by omega)⟩

/-- Helper: a fold of `max` over ids never goes below its accumulator. -/
theorem le_foldl_max (l : List RowColEntry) (acc : Nat) :
    acc ≤ l.foldl (fun a e => max a (e.id + 1)) acc := by
  induction l generalizing acc with
  | nil => simp [List.foldl]
  | cons hd tl ih =>
      exact le_trans (le_max_left acc (hd.id + 1)) (ih (max acc (hd.id + 1)))

/-- Helper: every id in the list is strictly below the fold of `max` over
the successors of the ids. -/
theorem id_lt_foldl_max (l : List RowColEntry) (acc : Nat) :
    ∀ e ∈ l, e.id < l.foldl (fun a e0 => max a (e0.id + 1)) acc := by
  induction l generalizing acc with
  | nil => intro e he; cases he
  | cons hd tl ih =>
      intro e he
      rcases List.mem_cons.mp he with rfl | hm
      · calc e.id < e.id + 1 := Nat.lt_succ_self _
          _ ≤ max acc (e.id + 1) := le_max_right _ _
          _ ≤ _ := le_foldl_max tl _
      · exact ih _ e hm

/-- Helper: `nextId` is unused — strictly greater than every existing id. -/
theorem id_lt_nextId (l : List RowColEntry) : ∀ e ∈ l, e.id < nextId l :=
  id_lt_foldl_max l 0

/-- Helper: appending a fresh name with the next unused id preserves
injectivity of both the name list and the id list. -/
theorem nodup_append_fresh (l : List RowColEntry) (nm : String)
    (hn : (l.map (·.name)).Nodup) (hi : (l.map (·.id)).Nodup)
    (hnew : l.any (fun e => e.name == nm) = false) :
    ((l ++ [({ name := nm, id := nextId l } : RowColEntry)]).map (·.name)).Nodup ∧
    ((l ++ [({ name := nm, id := nextId l } : RowColEntry)]).map (·.id)).Nodup := by
  have hnm : ∀ e ∈ l, e.name ≠ nm := by
    intro e he
    have := List.any_eq_false.mp hnew e he
    simpa using this
  constructor
  · rw [List.map_append]
    refine List.Nodup.append hn (List.nodup_singleton _) ?_
    rw [List.map_singleton, List.disjoint_singleton]
    intro hmem
    obtain ⟨e, he, heq⟩ := List.mem_map.mp hmem
    exact hnm e he heq
  · rw [List.map_append]
    refine List.Nodup.append hi (List.nodup_singleton _) ?_
    rw [List.map_singleton, List.disjoint_singleton]
    intro hmem
    obtain ⟨e, he, heq⟩ := List.mem_map.mp hmem
    exact absurd heq (Nat.ne_of_lt (id_lt_nextId l e he))

/-- C5 (counterexample): renaming the only well `B/03` of row `B` to `D/4`
leaves plate metadata whose row-name list is exactly `["D"]` and whose
column-name list is exactly `["4"]` — the emptied source row `B` and
column `03` are removed (as `test_ngff.py` `test_rename_well` asserts),
refuting the claim that the source row's and column's index entries remain
present. -/
theorem C5_counterexample :
    renameRowNames c5P "B/03" "D/4" = some ["D"] ∧
    renameColNames c5P "B/03" "D/4" = some ["4"] ∧
    "B" ∉ (["D"] : List String) ∧ "03" ∉ (["4"] : List String) :=
  ⟨rfl, rfl, by decide, by decide⟩

/-- C5 (amended): a successful `rename_well` moves the well to the
destination; afterwards the destination row and column have index entries,
every source row/column entry still backed by some well remains, an entry
emptied by the rename is removed from the plate metadata, and the name and
id lists of the Row and Column indices stay injective. -/
theorem C5_rename_well_invariants (p : PlateState) (src dst : String)
    (sr sc dr dc : String)
    (hsrc : parseWellPath src = some (sr, sc))
    (hdst : parseWellPath dst = some (dr, dc))
    (hdnew : p.wells.any (fun w => w.row == dr && w.col == dc) = false)
    (hsex : p.wells.any (fun w => w.row == sr && w.col == sc) = true)
    (hrn : (p.rows.map (·.name)).Nodup) (hri : (p.rows.map (·.id)).Nodup)
    (hcn : (p.columns.map (·.name)).Nodup) (hci : (p.columns.map (·.id)).Nodup) :
    ∃ p', rename_well p src dst = .ok p' ∧
      ({ row := dr, col := dc } : WellSlot) ∈ p'.wells ∧
      ({ row := sr, col := sc } : WellSlot) ∉ p'.wells ∧
      (∃ e ∈ p'.rows, e.name = dr) ∧ (∃ e ∈ p'.columns, e.name = dc) ∧
      (∀ e ∈ p.rows, (p'.wells.any fun w => w.row == e.name) = true → e ∈ p'.rows) ∧
      (∀ e ∈ p.columns, (p'.wells.any fun w => w.col == e.name) = true → e ∈ p'.columns) ∧
      ((p'.wells.any fun w => w.row == sr) = false → ∀ e ∈ p'.rows, e.name ≠ sr) ∧
      ((p'.wells.any fun w => w.col == sc) = false → ∀ e ∈ p'.columns, e.name ≠ sc) ∧
      (p'.rows.map (·.name)).Nodup ∧ (p'.rows.map (·.id)).Nodup ∧
      (p'.columns.map (·.name)).Nodup ∧ (p'.columns.map (·.id)).Nodup := by
  have hne : ¬ (dr = sr ∧ dc = sc) := by
    rintro ⟨rfl, rfl⟩
    obtain ⟨w, hw, hwm⟩ := List.any_eq_true.mp hsex
    exact List.any_eq_false.mp hdnew w hw hwm
  have hok : rename_well p src dst = .ok
      { rows := (if p.rows.any (fun e0 => e0.name == dr) then p.rows
            else p.rows ++ [({ name := dr, id := nextId p.rows } : RowColEntry)]).filter
          fun e => (p.wells.map fun w =>
            if w.row == sr && w.col == sc then { row := dr, col := dc } else w).any
              fun w => w.row == e.name
        columns := (if p.columns.any (fun e0 => e0.name == dc) then p.columns
            else p.columns ++ [({ name := dc, id := nextId p.columns } : RowColEntry)]).filter
          fun e => (p.wells.map fun w =>
            if w.row == sr && w.col == sc then { row := dr, col := dc } else w).any
              fun w => w.col == e.name
        wells := p.wells.map fun w =>
          if w.row == sr && w.col == sc then { row := dr, col := dc } else w } := by
    simp only [rename_well, hsrc, hdst, hdnew, hsex, Bool.not_true, Bool.false_eq_true,
      if_false, ite_false]
  have hdmem : ({ row := dr, col := dc } : WellSlot) ∈ (p.wells.map fun w =>
      if w.row == sr && w.col == sc then { row := dr, col := dc } else w) := by
    obtain ⟨w, hw, hwm⟩ := List.any_eq_true.mp hsex
    refine List.mem_map.mpr ⟨w, hw, ?_⟩
    simp only [hwm, if_true]
  have hdany : ∀ nm : String, nm = dr → ((p.wells.map fun w =>
      if w.row == sr && w.col == sc then { row := dr, col := dc } else w).any
        fun w => w.row == nm) = true := by
    intro nm hnm
    exact List.any_eq_true.mpr ⟨_, hdmem, by simp [hnm]⟩
  have hdanyc : ∀ nm : String, nm = dc → ((p.wells.map fun w =>
      if w.row == sr && w.col == sc then { row := dr, col := dc } else w).any
        fun w => w.col == nm) = true := by
    intro nm hnm
    exact List.any_eq_true.mpr ⟨_, hdmem, by simp [hnm]⟩
  refine ⟨_, hok, hdmem, ?_, ?_, ?_, ?_, ?_, ?_, ?_, ?_, ?_, ?_, ?_⟩
  · intro hmem
    obtain ⟨w, hw, hfw⟩ := List.mem_map.mp hmem
    by_cases hm : (w.row == sr && w.col == sc) = true
    · rw [if_pos hm] at hfw
      exact hne ⟨congrArg WellSlot.row hfw, congrArg WellSlot.col hfw⟩
    · rw [if_neg hm] at hfw
      apply hm
      rw [hfw]
      simp
  · by_cases hr : p.rows.any (fun e0 => e0.name == dr) = true
    · obtain ⟨e, he, hem⟩ := List.any_eq_true.mp hr
      have hename : e.name = dr := by simpa using hem
      refine ⟨e, ?_, hename⟩
      simp only [hr, if_true]
      exact List.mem_filter.mpr ⟨he, hdany e.name hename⟩
    · simp only [Bool.not_eq_true] at hr
      refine ⟨({ name := dr, id := nextId p.rows } : RowColEntry), ?_, rfl⟩
      simp only [hr, Bool.false_eq_true, if_false]
      refine List.mem_filter.mpr ⟨List.mem_append_right _ (List.mem_singleton.mpr rfl), ?_⟩
      exact hdany _ rfl
  · by_cases hc : p.columns.any (fun e0 => e0.name == dc) = true
    · obtain ⟨e, he, hem⟩ := List.any_eq_true.mp hc
      have hename : e.name = dc := by simpa using hem
      refine ⟨e, ?_, hename⟩
      simp only [hc, if_true]
      exact List.mem_filter.mpr ⟨he, hdanyc e.name hename⟩
    · simp only [Bool.not_eq_true] at hc
      refine ⟨({ name := dc, id := nextId p.columns } : RowColEntry), ?_, rfl⟩
      simp only [hc, Bool.false_eq_true, if_false]
      refine List.mem_filter.mpr ⟨List.mem_append_right _ (List.mem_singleton.mpr rfl), ?_⟩
      exact hdanyc _ rfl
  · intro e he hused
    by_cases hr : p.rows.any (fun e0 => e0.name == dr) = true
    · simp only [hr, if_true]
      exact List.mem_filter.mpr ⟨he, hused⟩
    · simp only [Bool.not_eq_true] at hr
      simp only [hr, Bool.false_eq_true, if_false]
      exact List.mem_filter.mpr ⟨List.mem_append_left _ he, hused⟩
  · intro e he hused
    by_cases hc : p.columns.any (fun e0 => e0.name == dc) = true
    · simp only [hc, if_true]
      exact List.mem_filter.mpr ⟨he, hused⟩
    · simp only [Bool.not_eq_true] at hc
      simp only [hc, Bool.false_eq_true, if_false]
      exact List.mem_filter.mpr ⟨List.mem_append_left _ he, hused⟩
  · intro hempty e he heq
    have hcond := (List.mem_filter.mp he).2
    rw [heq] at hcond
    rw [hempty] at hcond
    cases hcond
  · intro hempty e he heq
    have hcond := (List.mem_filter.mp he).2
    rw [heq] at hcond
    rw [hempty] at hcond
    cases hcond
  · by_cases hr : p.rows.any (fun e0 => e0.name == dr) = true
    · simp only [hr, if_true]
      exact hrn.sublist ((List.filter_sublist _).map _)
    · simp only [Bool.not_eq_true] at hr
      simp only [hr, Bool.false_eq_true, if_false]
      exact (nodup_append_fresh p.rows dr hrn hri hr).1.sublist ((List.filter_sublist _).map _)
  · by_cases hr : p.rows.any (fun e0 => e0.name == dr) = true
    · simp only [hr, if_true]
      exact hri.sublist ((List.filter_sublist _).map _)
    · simp only [Bool.not_eq_true] at hr
      simp only [hr, Bool.false_eq_true, if_false]
      exact (nodup_append_fresh p.rows dr hrn hri hr).2.sublist ((List.filter_sublist _).map _)
  · by_cases hc : p.columns.any (fun e0 => e0.name == dc) = true
    · simp only [hc, if_true]
      exact hcn.sublist ((List.filter_sublist _).map _)
    · simp only [Bool.not_eq_true] at hc
      simp only [hc, Bool.false_eq_true, if_false]
      exact (nodup_append_fresh p.columns dc hcn hci hc).1.sublist ((List.filter_sublist _).map _)
  · by_cases hc : p.columns.any (fun e0 => e0.name == dc) = true
    · simp only [hc, if_true]
      exact hci.sublist ((List.filter_sublist _).map _)
    · simp only [Bool.not_eq_true] at hc
      simp only [hc, Bool.false_eq_true, if_false]
      exact (nodup_append_fresh p.columns dc hcn hci hc).2.sublist ((List.filter_sublist _).map _)

/-- Witness for C5 (amended): on a two-well plate (`B/2`, `C/4`), renaming
`B/2 → D/5` succeeds; the moved well is at `D/5`, the emptied row `B` and
column `2` entries are gone, the still-used row `C` and column `4` entries
remain, and the index lists stay injective. -/
theorem C5_rename_well_invariants_witness :
    ∃ p', rename_well c6P "B/2" "D/5" = .ok p' ∧
      ({ row := "D", col := "5" } : WellSlot) ∈ p'.wells ∧
      ({ row := "B", col := "2" } : WellSlot) ∉ p'.wells ∧
      (∃ e ∈ p'.rows, e.name = "D") ∧ (∃ e ∈ p'.columns, e.name = "5") ∧
      (∀ e ∈ c6P.rows, (p'.wells.any fun w => w.row == e.name) = true → e ∈ p'.rows) ∧
      (∀ e ∈ c6P.columns, (p'.wells.any fun w => w.col == e.name) = true → e ∈ p'.columns) ∧
      ((p'.wells.any fun w => w.row == "B") = false → ∀ e ∈ p'.rows, e.name ≠ "B") ∧
      ((p'.wells.any fun w => w.col == "2") = false → ∀ e ∈ p'.columns, e.name ≠ "2") ∧
      (p'.rows.map (·.name)).Nodup ∧ (p'.rows.map (·.id)).Nodup ∧
      (p'.columns.map (·.name)).Nodup ∧ (p'.columns.map (·.id)).Nodup :=
  C5_rename_well_invariants c6P "B/2" "D/5" "B" "2" "D" "5" rfl rfl
    (by decide) (by decide) (by decide) (by decide) (by decide) (by decide)

/-- C6: `rename_well` fails with `ValueError` when either path is malformed
(not `<row>/<col>` from path-safe characters), when the destination well
exists, or when the source well does not; every failure is returned before
any mutation, so the plate state is unchanged. -/
theorem C6_rename_well_failures (p : PlateState) (src dst : String) :
    (parseWellPath src = none ∨ parseWellPath dst = none →
      rename_well p src dst =
        .error "Well path must be like A/1 with path-safe row and column names.") ∧
    (∀ sr sc dr dc, parseWellPath src = some (sr, sc) → parseWellPath dst = some (dr, dc) →
      p.wells.any (fun w => w.row == dr && w.col == dc) = true →
      rename_well p src dst = .error "Destination well already exists.") ∧
    (∀ sr sc dr dc, parseWellPath src = some (sr, sc) → parseWellPath dst = some (dr, dc) →
      p.wells.any (fun w => w.row == dr && w.col == dc) = false →
      p.wells.any (fun w => w.row == sr && w.col == sc) = false →
      rename_well p src dst = .error "Source well does not exist.") := by
  refine ⟨fun h => ?_, fun sr sc dr dc hs hd hany => ?_,
    fun sr sc dr dc hs hd hdany hsany => ?_⟩
  · rcases h with h | h
    · cases hd : parseWellPath dst with
      | none => simp [rename_well, h, hd]
      | some v =>
          obtain ⟨a, b⟩ := v
          simp [rename_well, h, hd]
    · cases hs' : parseWellPath src with
      | none => simp [rename_well, h, hs']
      | some v =>
          obtain ⟨a, b⟩ := v
          simp [rename_well, h, hs']
  · simp [rename_well, hs, hd, hany]
  · simp [rename_well, hs, hd, hdany, hsany]

/-- Witness for C6: on a two-well plate (`B/2`, `C/4`), renaming onto the
occupied `C/4` fails, renaming from the absent `Q/1` fails, and the
malformed destinations `" A/1"` (leading space) and `"A/?"` (reserved
character) fail. -/
theorem C6_rename_well_failures_witness :
    rename_well c6P "B/2" "C/4" = .error "Destination well already exists." ∧
    rename_well c6P "Q/1" "Q/2" = .error "Source well does not exist." ∧
    rename_well c6P "B/2" " A/1" =
      .error "Well path must be like A/1 with path-safe row and column names." ∧
    rename_well c6P "B/2" "A/?" =
      .error "Well path must be like A/1 with path-safe row and column names." :=
  ⟨(C6_rename_well_failures c6P "B/2" "C/4").2.1 "B" "2" "C" "4" rfl rfl (by decide),
   (C6_rename_well_failures c6P "Q/1" "Q/2").2.2 "Q" "1" "Q" "2" rfl rfl (by decide) (by decide),
   (C6_rename_well_failures c6P "B/2" " A/1").1 (Or.inr rfl),
   (C6_rename_well_failures c6P "B/2" "A/?").1 (Or.inr rfl)⟩

/-- C8: with a positive `new_scale`, `set_scale` succeeds and rewrites only
the scale component of the named axis in the named dataset's own transform —
translations are preserved verbatim, other axes and other datasets are
unchanged, the FOV-level pipeline is untouched — and the previous scale
value is recorded under the reserved audit key; with a non-positive
`new_scale` it fails with `ValueError` (before any mutation, so the prior
value remains retrievable). -/
theorem C8_set_scale_spec (node : FOVNode) (image axis_name : String) (q : ℚ)
    (i : Nat) (d : FOVDataset)
    (hax : node.axes.findIdx? (· == axis_name) = some i)
    (hds : node.datasets.find? (·.path == image) = some d) :
    (0 < q → ∃ node', set_scale node image axis_name q = .ok node' ∧
      node'.axes = node.axes ∧
      node'.fovTransforms = node.fovTransforms ∧
      (∀ d0 ∈ node.datasets, d0.path ≠ image → d0 ∈ node'.datasets) ∧
      (∀ d0 ∈ node.datasets, d0.path = image →
        ({ d0 with transforms := setScaleTransforms d0.transforms i q } : FOVDataset)
          ∈ node'.datasets) ∧
      (∀ ts t, TransformationMeta.translation t ∈ ts →
        TransformationMeta.translation t ∈ setScaleTransforms ts i q) ∧
      (∀ s : List ℚ, i < s.length → (s.set i q).getD i 0 = q) ∧
      (∀ (s : List ℚ) (j : Nat), j ≠ i → (s.set i q).getD j 0 = s.getD j 0) ∧
      (∀ q0, priorScaleAt d.transforms i = some q0 →
        lookupAssoc node'.iohubAttrs ("prior_" ++ axis_name ++ "_scale") = some q0)) ∧
    (q ≤ 0 → set_scale node image axis_name q = .error "Scale must be positive.") := by
  constructor
  · intro hq
    have hle : ¬ q ≤ 0 := not_le.mpr hq
    have hok : set_scale node image axis_name q = .ok
        { axes := node.axes
          fovTransforms := node.fovTransforms
          datasets := node.datasets.map fun d0 =>
            if d0.path == image then
              { d0 with transforms := setScaleTransforms d0.transforms i q }
            else d0
          iohubAttrs := match priorScaleAt d.transforms i with
            | none => node.iohubAttrs
            | some q1 => setAssoc node.iohubAttrs ("prior_" ++ axis_name ++ "_scale") q1 } := by
      rw [set_scale, if_neg hle, hax, hds]
    refine ⟨_, hok, rfl, rfl, ?_, ?_, ?_, ?_, ?_, ?_⟩
    · intro d0 hd0 hne
      refine List.mem_map.mpr ⟨d0, hd0, ?_⟩
      rw [if_neg (by simpa using hne)]
    · intro d0 hd0 heq
      refine List.mem_map.mpr ⟨d0, hd0, ?_⟩
      rw [if_pos (by simpa using heq)]
    · intro ts t ht
      exact List.mem_map.mpr ⟨TransformationMeta.translation t, ht, rfl⟩
    · intro s hi
      have hlen : i < (s.set i q).length := by simpa using hi
      rw [List.getD_eq_getElem _ _ hlen]
      simp
    · intro s j hj
      by_cases hjl : j < s.length
      · have h1 : j < (s.set i q).length := by simpa using hjl
        rw [List.getD_eq_getElem _ _ h1, List.getD_eq_getElem _ _ hjl,
          List.getElem_set_ne (by omega)]
      · have h1 : ¬ j < (s.set i q).length := by simpa using hjl
        rw [List.getD_eq_default _ _ (by omega), List.getD_eq_default _ _ (by omega)]
    · intro q0 hq0
      simp only [hq0]
      exact lookupAssoc_setAssoc_self _ _ _
  · intro hle
    rw [set_scale, if_pos hle]

/-- Witness for C8: on a node with axes `t c z y x` and dataset `"0"` whose
pipeline is `[translation (1,2,3,4,5), scale (5,4,3,2,1)]`, `set_scale`
with `new_scale = 10` on axis `"z"` succeeds (recording the prior value 3
under `"prior_z_scale"`), and with `new_scale = -1` it fails. -/
theorem C8_set_scale_spec_witness :
    (∃ node', set_scale c8Node "0" "z" 10 = .ok node' ∧
      node'.axes = c8Node.axes ∧
      node'.fovTransforms = c8Node.fovTransforms ∧
      (∀ d0 ∈ c8Node.datasets, d0.path ≠ "0" → d0 ∈ node'.datasets) ∧
      (∀ d0 ∈ c8Node.datasets, d0.path = "0" →
        ({ d0 with transforms := setScaleTransforms d0.transforms 2 10 } : FOVDataset)
          ∈ node'.datasets) ∧
      (∀ ts t, TransformationMeta.translation t ∈ ts →
        TransformationMeta.translation t ∈ setScaleTransforms ts 2 10) ∧
      (∀ s : List ℚ, 2 < s.length → (s.set 2 10).getD 2 0 = 10) ∧
      (∀ (s : List ℚ) (j : Nat), j ≠ 2 → (s.set 2 10).getD j 0 = s.getD j 0) ∧
      (∀ q0, priorScaleAt c8D.transforms 2 = some q0 →
        lookupAssoc node'.iohubAttrs "prior_z_scale" = some q0)) ∧
    set_scale c8Node "0" "z" (-1) = .error "Scale must be positive." :=
  ⟨(C8_set_scale_spec c8Node "0" "z" 10 2 c8D rfl rfl).1 (by norm_num),
   (C8_set_scale_spec c8Node "0" "z" (-1) 2 c8D rfl rfl).2 (by norm_num)⟩

/-- C9: writing a well-formed 5D array with `create_image` into a fresh
store and reading it back returns bit-identical data, and the external
reference reader recovers the same channel names, dataset path, shape and
dtype from the persisted store. -/
theorem C9_create_image_roundtrip (cn : List String) (name : String) (data : NDArr)
    (t c z y x : Nat) (tr : Option (List TransformationMeta))
    (hshape : data.shape = [t, c, z, y, x])
    (hc : c = cn.length) :
    ∃ pos', create_image (mkPosition cn) name data tr = .ok pos' ∧
      (∃ a, refReaderArray pos' name = some a ∧
        a.shape = [t, c, z, y, x] ∧ a.dtype = data.dtype ∧
        ∀ idx, a.val idx = data.val idx) ∧
      refReaderChannelNames pos' = cn ∧
      name ∈ refReaderDatasetPaths pos' := by
  obtain ⟨ds, ddt, dval⟩ := data
  change ds = [t, c, z, y, x] at hshape
  subst hshape
  subst hc
  have hok : create_image (mkPosition cn) name ⟨[t, cn.length, z, y, x], ddt, dval⟩ tr =
      .ok (⟨cn, cn, [(name, ⟨[t, cn.length, z, y, x], ddt, [t, cn.length, z, y, x], dval⟩)],
        [dataset_meta name tr]⟩ : Position) := by
    simp [create_image, mkPosition, setAssoc]
  refine ⟨_, hok, ⟨⟨[t, cn.length, z, y, x], ddt, [t, cn.length, z, y, x], dval⟩,
    ?_, rfl, rfl, fun idx => rfl⟩, rfl, ?_⟩
  · simp [refReaderArray, lookupAssoc]
  · simp [refReaderDatasetPaths, dataset_meta]

/-- Witness for C9: a `(1, 2, 2, 2, 2)` array with channels
`["DAPI", "GFP"]` round-trips and the reference reader recovers the channel
names and the dataset path `"raw"`. -/
theorem C9_create_image_roundtrip_witness :
    ∃ pos', create_image (mkPosition ["DAPI", "GFP"]) "raw" c9Data none = .ok pos' ∧
      (∃ a, refReaderArray pos' "raw" = some a ∧
        a.shape = [1, 2, 2, 2, 2] ∧ a.dtype = c9Data.dtype ∧
        ∀ idx, a.val idx = c9Data.val idx) ∧
      refReaderChannelNames pos' = ["DAPI", "GFP"] ∧
      "raw" ∈ refReaderDatasetPaths pos' :=
  C9_create_image_roundtrip ["DAPI", "GFP"] "raw" c9Data 1 2 2 2 2 none rfl (by decide)

end Iohub
